import Mathlib

/-!
Shallow embedding of the XAI attribution routines of this repository:
the Morris Sensitivity Analysis heatmap in
`src/xai_methods/Local_Perturbation/Morris_Sensitivity_Analysis.py`
(`generate_attribution`) and the target-layer dispatch of
`src/xai_methods/Local_Backpropagation/Grad_CAM.py` (`generate_attribution`).

An image tensor of shape `[1, 3, H, W]` is modelled as a function
`channel → row → column → ℚ` (exact rationals stand in for floats; the
claims under study are about value-level dataflow, not rounding).  The
composite `F.softmax(model(·), dim=1)[0, predicted_class]` is modelled as
one opaque scoring function `Img → ℕ → ℚ`.
-/

namespace XaiEfficiency

/-- Image tensor: channel, row, column to pixel value. -/
abbrev Img : Type := ℕ → ℕ → ℕ → ℚ

/-- Models the map `im ↦ F.softmax(model(im), dim=1)[0, c]` for each class `c`. -/
abbrev ScoreFn : Type := Img → ℕ → ℚ

/-- The in-place slice update
`perturbed_image[:, :, i*ps:(i+1)*ps, j*ps:(j+1)*ps] += delta` applied to a
clone of `image`: pixels inside the patch rectangle gain `delta` on every
channel, all other pixels are unchanged. -/
def perturbPatch (image : Img) (patch_size i j : ℕ) (delta : ℚ) : Img :=
  fun c y x =>
    if i * patch_size ≤ y ∧ y < (i + 1) * patch_size ∧
        j * patch_size ≤ x ∧ x < (j + 1) * patch_size then
      image c y x + delta
    else
      image c y x

/-- One elementary effect: `(new_prob - orig_prob) / delta` where `new_prob`
is the target-class score of the perturbed clone. -/
def elementaryEffect (score : ScoreFn) (image : Img) (predicted_class : ℕ)
    (orig_prob : ℚ) (patch_size i j : ℕ) (delta : ℚ) : ℚ :=
  (score (perturbPatch image patch_size i j delta) predicted_class - orig_prob) / delta

/-- The `effects` list built by the inner `for s in range(num_samples)` loop.
Each iteration clones the same image, adds the same `delta` to the same patch
and scores it, so the loop appends `num_samples` copies of the same value. -/
def effectsList (score : ScoreFn) (image : Img) (predicted_class : ℕ)
    (orig_prob : ℚ) (patch_size i j num_samples : ℕ) (delta : ℚ) : List ℚ :=
  List.replicate num_samples
    (elementaryEffect score image predicted_class orig_prob patch_size i j delta)

/-- `heatmap[i, j] = sum(effects) / len(effects)`: the average elementary
effect over `num_samples` repetitions for patch `(i, j)`. -/
def patchValue (score : ScoreFn) (image : Img) (predicted_class : ℕ)
    (orig_prob : ℚ) (patch_size i j num_samples : ℕ) (delta : ℚ) : ℚ :=
  (effectsList score image predicted_class orig_prob patch_size i j num_samples delta).sum /
    ((effectsList score image predicted_class orig_prob patch_size i j num_samples delta).length : ℚ)

/-- Row-major list of patch indices visited by the nested
`for i in range(num_patches_h): for j in range(num_patches_w)` loops. -/
def patchIndexList (num_patches_h num_patches_w : ℕ) : List (ℕ × ℕ) :=
  (List.range num_patches_h).flatMap fun i =>
    (List.range num_patches_w).map fun j => (i, j)

/-- Imperative fill of the patch grid: starting from `init`
(`torch.zeros((num_patches_h, num_patches_w))`), visit the patch indices of
`order` in turn and store `value p` at position `p`. -/
def fillGrid (value : ℕ × ℕ → ℚ) (order : List (ℕ × ℕ)) (init : ℕ × ℕ → ℚ) :
    ℕ × ℕ → ℚ :=
  order.foldl (fun h p => Function.update h p (value p)) init

/-- The raw (pre-normalization) patch heatmap, with the patch visiting order
made explicit.  The baseline probability `orig_prob = score image
predicted_class` is computed once, before the loop, exactly as in the source. -/
def rawHeatmapWith (score : ScoreFn) (image : Img)
    (predicted_class patch_size num_samples : ℕ) (delta : ℚ)
    (order : List (ℕ × ℕ)) : ℕ × ℕ → ℚ :=
  fillGrid
    (fun p => patchValue score image predicted_class (score image predicted_class)
      patch_size p.1 p.2 num_samples delta)
    order (fun _ => 0)

/-- Minimum of a tensor's entries, `tensor.min()`; the empty case never
occurs on the paths where the source calls it (see the failure model below). -/
def listMin : List ℚ → ℚ
  | [] => 0
  | a :: l => l.foldl min a

/-- Maximum of a tensor's entries, `tensor.max()`. -/
def listMax : List ℚ → ℚ
  | [] => 0
  | a :: l => l.foldl max a

/-- The entries of a `nh × nw` grid, flattened row-major. -/
def gridVals (g : ℕ × ℕ → ℚ) (num_patches_h num_patches_w : ℕ) : List ℚ :=
  (patchIndexList num_patches_h num_patches_w).map fun p => g p

/-- The constant `eps = 1e-8` from the source. -/
def eps : ℚ := 1 / 100000000

/-- `heatmap = torch.abs(heatmap)` followed by the min-max normalization:
if `(heat_max - heat_min) > eps` rescale with
`(heatmap - heat_min) / (heat_max - heat_min)`, otherwise `heatmap.zero_()`. -/
def normalizeGrid (g : ℕ × ℕ → ℚ) (num_patches_h num_patches_w : ℕ) :
    ℕ × ℕ → ℚ :=
  if listMax (gridVals (fun p => |g p|) num_patches_h num_patches_w) -
      listMin (gridVals (fun p => |g p|) num_patches_h num_patches_w) > eps then
    fun p =>
      (|g p| - listMin (gridVals (fun q => |g q|) num_patches_h num_patches_w)) /
        (listMax (gridVals (fun q => |g q|) num_patches_h num_patches_w) -
          listMin (gridVals (fun q => |g q|) num_patches_h num_patches_w))
  else
    fun _ => 0

/-- Source coordinate of an output pixel under
`F.interpolate(·, mode='bilinear', align_corners=False)`:
`max(0, (d + 0.5) * in_size / out_size - 0.5)` (PyTorch clamps the negative
overhang of the first output pixels to 0). -/
def sourceIndex (out_size in_size d : ℕ) : ℚ :=
  max 0 (((d : ℚ) + 1 / 2) * (in_size : ℚ) / (out_size : ℚ) - 1 / 2)

/-- Lower interpolation index: the floor of the source coordinate. -/
def lowIdx (s : ℚ) : ℕ :=
  (Int.floor s).toNat

/-- Upper interpolation index, clamped to the last row or column. -/
def highIdx (s : ℚ) (n : ℕ) : ℕ :=
  min (lowIdx s + 1) (n - 1)

/-- Fractional interpolation weight of the upper index. -/
def interpWeight (s : ℚ) : ℚ :=
  s - (lowIdx s : ℚ)

/-- Linear interpolation `(1 - t) * a + t * b`. -/
def mix (t a b : ℚ) : ℚ :=
  (1 - t) * a + t * b

/-- One output pixel of the bilinear upsampling of the `nh × nw` grid `g`
to resolution `H × W` with `align_corners=False`. -/
def bilinearSample (g : ℕ × ℕ → ℚ) (num_patches_h num_patches_w H W y x : ℕ) : ℚ :=
  mix (interpWeight (sourceIndex H num_patches_h y))
    (mix (interpWeight (sourceIndex W num_patches_w x))
      (g (lowIdx (sourceIndex H num_patches_h y), lowIdx (sourceIndex W num_patches_w x)))
      (g (lowIdx (sourceIndex H num_patches_h y), highIdx (sourceIndex W num_patches_w x) num_patches_w)))
    (mix (interpWeight (sourceIndex W num_patches_w x))
      (g (highIdx (sourceIndex H num_patches_h y) num_patches_h, lowIdx (sourceIndex W num_patches_w x)))
      (g (highIdx (sourceIndex H num_patches_h y) num_patches_h, highIdx (sourceIndex W num_patches_w x) num_patches_w)))

/-- The raw patch grid of `generate_attribution`: the row-major fill over
the `H // patch_size × W // patch_size` patch index grid. -/
def msaPatchGrid (score : ScoreFn) (image : Img)
    (predicted_class H W patch_size num_samples : ℕ) (delta : ℚ) : ℕ × ℕ → ℚ :=
  rawHeatmapWith score image predicted_class patch_size num_samples delta
    (patchIndexList (H / patch_size) (W / patch_size))

/-- The patch grid after `torch.abs` and min-max normalization. -/
def msaNormalizedGrid (score : ScoreFn) (image : Img)
    (predicted_class H W patch_size num_samples : ℕ) (delta : ℚ) : ℕ × ℕ → ℚ :=
  normalizeGrid (msaPatchGrid score image predicted_class H W patch_size num_samples delta)
    (H / patch_size) (W / patch_size)

/-- The whole pipeline with an explicit patch visiting order (used to state
order independence). -/
def generate_attribution_with_order (score : ScoreFn) (image : Img)
    (predicted_class H W patch_size num_samples : ℕ) (delta : ℚ)
    (order : List (ℕ × ℕ)) : ℕ → ℕ → ℚ :=
  fun y x =>
    bilinearSample
      (normalizeGrid (rawHeatmapWith score image predicted_class patch_size num_samples delta order)
        (H / patch_size) (W / patch_size))
      (H / patch_size) (W / patch_size) H W y x

/-- `generate_attribution` of `Morris_Sensitivity_Analysis.py`: baseline
score, patch loop in row-major order, abs, min-max normalization, bilinear
upsampling to `(H, W)`. -/
def generate_attribution (score : ScoreFn) (image : Img)
    (predicted_class H W patch_size num_samples : ℕ) (delta : ℚ) : ℕ → ℕ → ℚ :=
  generate_attribution_with_order score image predicted_class H W patch_size num_samples delta
    (patchIndexList (H / patch_size) (W / patch_size))

/-- The runtime failures `generate_attribution` can hit on degenerate
configurations.  The source contains no validation of its own; these
constructors name the Python exceptions that surface instead. -/
inductive MsaError : Type
  /-- `H // patch_size` with `patch_size = 0` raises `ZeroDivisionError`. -/
  | floorDivZero : MsaError
  /-- `sum(effects) / len(effects)` with `num_samples = 0` raises
  `ZeroDivisionError` at the first visited patch. -/
  | averageDivZero : MsaError
  /-- `heatmap.min()` on an empty `0 × nw` or `nh × 0` tensor raises
  `RuntimeError` (torch refuses the empty reduction). -/
  | emptyMinReduce : MsaError
deriving DecidableEq

/-- Failure model of `generate_attribution`: the baseline forward pass
(`model(image)`, pure here) always runs first; afterwards the listed
degenerate configurations raise, in the order the interpreter reaches them;
otherwise the run returns the pure heatmap. -/
def generate_attribution_run (score : ScoreFn) (image : Img)
    (predicted_class H W patch_size num_samples : ℕ) (delta : ℚ) :
    Except MsaError (ℕ → ℕ → ℚ) :=
  if patch_size = 0 then
    Except.error MsaError.floorDivZero
  else if 0 < H / patch_size ∧ 0 < W / patch_size ∧ num_samples = 0 then
    Except.error MsaError.averageDivZero
  else if H / patch_size = 0 ∨ W / patch_size = 0 then
    Except.error MsaError.emptyMinReduce
  else
    Except.ok (generate_attribution score image predicted_class H W patch_size num_samples delta)

/-- A heap of image buffers, to track which tensor the in-place `+=` writes
to: `data b` is the image stored in buffer `b`, `next` the first unused id. -/
structure Heap : Type where
  data : ℕ → Img
  next : ℕ

/-- `image.clone()`: allocate a fresh buffer holding a copy of buffer `src`
and return the new heap together with the fresh buffer id. -/
def heapClone (h : Heap) (src : ℕ) : Heap × ℕ :=
  (⟨Function.update h.data h.next (h.data src), h.next + 1⟩, h.next)

/-- The in-place `perturbed_image[...] += delta`, writing buffer `buf`. -/
def heapAddDelta (h : Heap) (buf patch_size i j : ℕ) (delta : ℚ) : Heap :=
  ⟨Function.update h.data buf (perturbPatch (h.data buf) patch_size i j delta), h.next⟩

/-- One iteration of the sample loop: clone the image buffer, perturb the
clone in place, score it, append the elementary effect. -/
def sampleStep (score : ScoreFn) (predicted_class img_buf patch_size i j : ℕ)
    (delta orig_prob : ℚ) (st : Heap × List ℚ) : Heap × List ℚ :=
  let cl := heapClone st.1 img_buf
  let h2 := heapAddDelta cl.1 cl.2 patch_size i j delta
  (h2, st.2 ++ [(score (h2.data cl.2) predicted_class - orig_prob) / delta])

/-- One iteration of the patch loop: reset `effects`, run the sample loop,
store the average in the heatmap grid. -/
def patchStep (score : ScoreFn) (predicted_class img_buf patch_size num_samples : ℕ)
    (delta orig_prob : ℚ) (st : Heap × (ℕ × ℕ → ℚ)) (p : ℕ × ℕ) :
    Heap × (ℕ × ℕ → ℚ) :=
  let r := (List.range num_samples).foldl
    (fun s _ => sampleStep score predicted_class img_buf patch_size p.1 p.2 delta orig_prob s)
    (st.1, [])
  (r.1, Function.update st.2 p (r.2.sum / (r.2.length : ℚ)))

/-- `generate_attribution` with buffer allocation made explicit: the input
image lives in buffer `img_buf` of heap `h0`; every perturbation clones it
into a fresh buffer and mutates only the clone.  Returns the final heap and
the upsampled heatmap. -/
def generate_attribution_heap (score : ScoreFn) (h0 : Heap)
    (img_buf predicted_class H W patch_size num_samples : ℕ) (delta : ℚ) :
    Heap × (ℕ → ℕ → ℚ) :=
  let orig_prob := score (h0.data img_buf) predicted_class
  let r := (patchIndexList (H / patch_size) (W / patch_size)).foldl
    (patchStep score predicted_class img_buf patch_size num_samples delta orig_prob)
    (h0, fun _ => 0)
  (r.1, fun y x =>
    bilinearSample (normalizeGrid r.2 (H / patch_size) (W / patch_size))
      (H / patch_size) (W / patch_size) H W y x)

/-- The torchvision model families inspected by the `isinstance` chain of
`Grad_CAM.generate_attribution`, plus a catch-all for any other model
class, carrying `type(model).__name__`. -/
inductive TorchvisionModel : Type
  | ConvNeXt : TorchvisionModel
  | EfficientNet : TorchvisionModel
  | ResNet : TorchvisionModel
  | VisionTransformer : TorchvisionModel
  | SwinTransformer : TorchvisionModel
  | RegNet : TorchvisionModel
  | MobileNetV3 : TorchvisionModel
  | DenseNet : TorchvisionModel
  | Unsupported : String → TorchvisionModel
deriving DecidableEq

/-- The internal layers the dispatch can select. -/
inductive TargetLayer : Type
  /-- `model.features[-1]`. -/
  | featuresLast : TargetLayer
  /-- `model.layer4[-1]`. -/
  | layer4Last : TargetLayer
  /-- `model.encoder.layers[-1]`. -/
  | encoderLayersLast : TargetLayer
  /-- `model.features[-1][-1].mlp[0]`. -/
  | swinFeaturesMlp0 : TargetLayer
  /-- `model.trunk_output`. -/
  | trunkOutput : TargetLayer
deriving DecidableEq

/-- The `isinstance` dispatch chain of `Grad_CAM.generate_attribution`,
returning the selected layer or the `ValueError` message
`f"Unsupported model architecture: ..."`. -/
def selectTargetLayer : TorchvisionModel → Except String TargetLayer
  | TorchvisionModel.ConvNeXt => Except.ok TargetLayer.featuresLast
  | TorchvisionModel.EfficientNet => Except.ok TargetLayer.featuresLast
  | TorchvisionModel.ResNet => Except.ok TargetLayer.layer4Last
  | TorchvisionModel.VisionTransformer => Except.ok TargetLayer.encoderLayersLast
  | TorchvisionModel.SwinTransformer => Except.ok TargetLayer.swinFeaturesMlp0
  | TorchvisionModel.RegNet => Except.ok TargetLayer.trunkOutput
  | TorchvisionModel.MobileNetV3 => Except.ok TargetLayer.featuresLast
  | TorchvisionModel.DenseNet => Except.ok TargetLayer.featuresLast
  | TorchvisionModel.Unsupported n =>
      Except.error ("Unsupported model architecture: " ++ n)

/-- `Grad_CAM.generate_attribution`: when `target_layer` is supplied use it,
otherwise dispatch on the model type; only on success is
`LayerGradCam(model, target_layer).attribute(...)` (the opaque
`layerAttribution`) run. -/
def gradcam_generate_attribution {α : Type} (model : TorchvisionModel)
    (target_layer : Option TargetLayer) (layerAttribution : TargetLayer → α) :
    Except String α :=
  match target_layer with
  | some l => Except.ok (layerAttribution l)
  | none => (selectTargetLayer model).map layerAttribution

/-! ### Helper lemmas shared by several claims -/

theorem mem_patchIndexList {num_patches_h num_patches_w : ℕ} {p : ℕ × ℕ} :
    p ∈ patchIndexList num_patches_h num_patches_w ↔
      p.1 < num_patches_h ∧ p.2 < num_patches_w := by
  obtain ⟨i, j⟩ := p
  simp only [patchIndexList, List.mem_flatMap, List.mem_map, List.mem_range, Prod.mk.injEq]
  constructor
  · rintro ⟨a, ha, b, hb, rfl, rfl⟩
    exact ⟨ha, hb⟩
  · rintro ⟨hi, hj⟩
    exact ⟨i, hi, j, hj, rfl, rfl⟩

theorem fillGrid_eval (value : ℕ × ℕ → ℚ) :
    ∀ (order : List (ℕ × ℕ)) (init : ℕ × ℕ → ℚ) (q : ℕ × ℕ),
      fillGrid value order init q = if q ∈ order then value q else init q := by
  intro order
  induction order with
  | nil =>
    intro init q
    simp [fillGrid]
  | cons p rest ih =>
    intro init q
    have h1 : fillGrid value (p :: rest) init q
        = fillGrid value rest (Function.update init p (value p)) q := rfl
    rw [h1, ih]
    by_cases hq : q ∈ rest
    · simp [hq]
    · by_cases hqp : q = p
      · subst hqp
        simp [hq]
      · simp [hq, hqp, Function.update_noteq hqp]

theorem foldl_min_le_init (l : List ℚ) : ∀ a : ℚ, l.foldl min a ≤ a := by
  induction l with
  | nil => intro a; exact le_refl a
  | cons b t ih => intro a; exact le_trans (ih (min a b)) (min_le_left a b)

theorem foldl_min_le_mem (l : List ℚ) : ∀ a x : ℚ, x ∈ l → l.foldl min a ≤ x := by
  induction l with
  | nil => intro a x hx; cases hx
  | cons b t ih =>
    intro a x hx
    rcases List.mem_cons.1 hx with h | h
    · subst h
      exact le_trans (foldl_min_le_init t (min a x)) (min_le_right a x)
    · exact ih (min a b) x h

theorem listMin_le_of_mem {l : List ℚ} {x : ℚ} (hx : x ∈ l) : listMin l ≤ x := by
  cases l with
  | nil => cases hx
  | cons a t =>
    rcases List.mem_cons.1 hx with h | h
    · subst h
      exact foldl_min_le_init t x
    · exact foldl_min_le_mem t a x h

theorem le_foldl_max_init (l : List ℚ) : ∀ a : ℚ, a ≤ l.foldl max a := by
  induction l with
  | nil => intro a; exact le_refl a
  | cons b t ih => intro a; exact le_trans (le_max_left a b) (ih (max a b))

theorem le_foldl_max_mem (l : List ℚ) : ∀ a x : ℚ, x ∈ l → x ≤ l.foldl max a := by
  induction l with
  | nil => intro a x hx; cases hx
  | cons b t ih =>
    intro a x hx
    rcases List.mem_cons.1 hx with h | h
    · subst h
      exact le_trans (le_max_right a x) (le_foldl_max_init t (max a x))
    · exact ih (max a b) x h

theorem le_listMax_of_mem {l : List ℚ} {x : ℚ} (hx : x ∈ l) : x ≤ listMax l := by
  cases l with
  | nil => cases hx
  | cons a t =>
    rcases List.mem_cons.1 hx with h | h
    · subst h
      exact le_foldl_max_init t x
    · exact le_foldl_max_mem t a x h

theorem eps_pos : 0 < eps := by
  norm_num [eps]

theorem normalizeGrid_mem_unit (g : ℕ × ℕ → ℚ) (num_patches_h num_patches_w : ℕ)
    (p : ℕ × ℕ) (hp1 : p.1 < num_patches_h) (hp2 : p.2 < num_patches_w) :
    0 ≤ normalizeGrid g num_patches_h num_patches_w p ∧
      normalizeGrid g num_patches_h num_patches_w p ≤ 1 := by
  unfold normalizeGrid
  split_ifs with h
  · have hmem : |g p| ∈ gridVals (fun q => |g q|) num_patches_h num_patches_w :=
      List.mem_map.2 ⟨p, mem_patchIndexList.2 ⟨hp1, hp2⟩, rfl⟩
    have hmn : listMin (gridVals (fun q => |g q|) num_patches_h num_patches_w) ≤ |g p| :=
      listMin_le_of_mem hmem
    have hmx : |g p| ≤ listMax (gridVals (fun q => |g q|) num_patches_h num_patches_w) :=
      le_listMax_of_mem hmem
    have hpos : 0 < listMax (gridVals (fun q => |g q|) num_patches_h num_patches_w) -
        listMin (gridVals (fun q => |g q|) num_patches_h num_patches_w) :=
      lt_trans eps_pos h
    constructor
    · exact div_nonneg (sub_nonneg.2 hmn) (le_of_lt hpos)
    · rw [div_le_one hpos]
      exact sub_le_sub_right hmx _
  · exact ⟨le_refl 0, zero_le_one⟩

theorem sourceIndex_nonneg (out_size in_size d : ℕ) : 0 ≤ sourceIndex out_size in_size d :=
  le_max_left 0 _

theorem sourceIndex_lt (out_size in_size d : ℕ) (hd : d < out_size) (hi : 0 < in_size) :
    sourceIndex out_size in_size d < in_size := by
  unfold sourceIndex
  have ho : (0 : ℚ) < out_size := by
    exact_mod_cast lt_of_le_of_lt (Nat.zero_le d) hd
  have hi' : (0 : ℚ) < in_size := by exact_mod_cast hi
  have hd' : (d : ℚ) + 1 / 2 < out_size := by
    have h1 : (d : ℚ) + 1 ≤ out_size := by exact_mod_cast hd
    linarith
  have key : ((d : ℚ) + 1 / 2) * in_size / out_size < in_size := by
    rw [div_lt_iff₀ ho]
    nlinarith
  exact max_lt hi' (by linarith)

theorem lowIdx_lt (s : ℚ) (n : ℕ) (h0 : 0 ≤ s) (hs : s < n) : lowIdx s < n := by
  unfold lowIdx
  have h1 : Int.floor s < (n : ℤ) := Int.floor_lt.2 (by exact_mod_cast hs)
  have h2 : 0 ≤ Int.floor s := Int.floor_nonneg.2 h0
  omega

theorem highIdx_lt (s : ℚ) (n : ℕ) (hn : 0 < n) : highIdx s n < n := by
  unfold highIdx
  exact lt_of_le_of_lt (min_le_right _ _) (Nat.sub_lt hn one_pos)

theorem lowIdx_cast (s : ℚ) (h0 : 0 ≤ s) : ((lowIdx s : ℕ) : ℚ) = (Int.floor s : ℚ) := by
  unfold lowIdx
  exact_mod_cast Int.toNat_of_nonneg (Int.floor_nonneg.2 h0)

theorem interpWeight_nonneg (s : ℚ) (h0 : 0 ≤ s) : 0 ≤ interpWeight s := by
  unfold interpWeight
  rw [lowIdx_cast s h0]
  have := Int.floor_le s
  linarith

theorem interpWeight_le_one (s : ℚ) (h0 : 0 ≤ s) : interpWeight s ≤ 1 := by
  unfold interpWeight
  rw [lowIdx_cast s h0]
  have := Int.lt_floor_add_one s
  linarith

theorem mix_mem_unit (t a b : ℚ) (ht0 : 0 ≤ t) (ht1 : t ≤ 1) (ha0 : 0 ≤ a)
    (ha1 : a ≤ 1) (hb0 : 0 ≤ b) (hb1 : b ≤ 1) :
    0 ≤ mix t a b ∧ mix t a b ≤ 1 := by
  unfold mix
  constructor <;> nlinarith

theorem bilinearSample_mem_unit (g : ℕ × ℕ → ℚ) (num_patches_h num_patches_w H W y x : ℕ)
    (hnh : 0 < num_patches_h) (hnw : 0 < num_patches_w) (hy : y < H) (hx : x < W)
    (hg : ∀ p : ℕ × ℕ, p.1 < num_patches_h → p.2 < num_patches_w → 0 ≤ g p ∧ g p ≤ 1) :
    0 ≤ bilinearSample g num_patches_h num_patches_w H W y x ∧
      bilinearSample g num_patches_h num_patches_w H W y x ≤ 1 := by
  have hy0 : lowIdx (sourceIndex H num_patches_h y) < num_patches_h :=
    lowIdx_lt _ _ (sourceIndex_nonneg _ _ _) (sourceIndex_lt _ _ _ hy hnh)
  have hy1 : highIdx (sourceIndex H num_patches_h y) num_patches_h < num_patches_h :=
    highIdx_lt _ _ hnh
  have hx0 : lowIdx (sourceIndex W num_patches_w x) < num_patches_w :=
    lowIdx_lt _ _ (sourceIndex_nonneg _ _ _) (sourceIndex_lt _ _ _ hx hnw)
  have hx1 : highIdx (sourceIndex W num_patches_w x) num_patches_w < num_patches_w :=
    highIdx_lt _ _ hnw
  have hty0 := interpWeight_nonneg _ (sourceIndex_nonneg H num_patches_h y)
  have hty1 := interpWeight_le_one _ (sourceIndex_nonneg H num_patches_h y)
  have htx0 := interpWeight_nonneg _ (sourceIndex_nonneg W num_patches_w x)
  have htx1 := interpWeight_le_one _ (sourceIndex_nonneg W num_patches_w x)
  have g00 := hg (lowIdx (sourceIndex H num_patches_h y), lowIdx (sourceIndex W num_patches_w x)) hy0 hx0
  have g01 := hg (lowIdx (sourceIndex H num_patches_h y), highIdx (sourceIndex W num_patches_w x) num_patches_w) hy0 hx1
  have g10 := hg (highIdx (sourceIndex H num_patches_h y) num_patches_h, lowIdx (sourceIndex W num_patches_w x)) hy1 hx0
  have g11 := hg (highIdx (sourceIndex H num_patches_h y) num_patches_h, highIdx (sourceIndex W num_patches_w x) num_patches_w) hy1 hx1
  have hA := mix_mem_unit (interpWeight (sourceIndex W num_patches_w x)) _ _ htx0 htx1 g00.1 g00.2 g01.1 g01.2
  have hB := mix_mem_unit (interpWeight (sourceIndex W num_patches_w x)) _ _ htx0 htx1 g10.1 g10.2 g11.1 g11.2
  unfold bilinearSample
  exact mix_mem_unit _ _ _ hty0 hty1 hA.1 hA.2 hB.1 hB.2

theorem foldl_min_zero (l : List ℚ) (h : ∀ x ∈ l, x = 0) : l.foldl min 0 = 0 := by
  induction l with
  | nil => rfl
  | cons b t ih =>
    have hb : b = 0 := h b (List.mem_cons_self b t)
    have ht : ∀ x ∈ t, x = 0 := fun x hx => h x (List.mem_cons_of_mem b hx)
    simp only [List.foldl_cons, hb, min_self]
    exact ih ht

theorem foldl_max_zero (l : List ℚ) (h : ∀ x ∈ l, x = 0) : l.foldl max 0 = 0 := by
  induction l with
  | nil => rfl
  | cons b t ih =>
    have hb : b = 0 := h b (List.mem_cons_self b t)
    have ht : ∀ x ∈ t, x = 0 := fun x hx => h x (List.mem_cons_of_mem b hx)
    simp only [List.foldl_cons, hb, max_self]
    exact ih ht

theorem listMin_all_zero {l : List ℚ} (h : ∀ x ∈ l, x = 0) : listMin l = 0 := by
  cases l with
  | nil => rfl
  | cons a t =>
    have ha : a = 0 := h a (List.mem_cons_self a t)
    have ht : ∀ x ∈ t, x = 0 := fun x hx => h x (List.mem_cons_of_mem a hx)
    show t.foldl min a = 0
    rw [ha]
    exact foldl_min_zero t ht

theorem listMax_all_zero {l : List ℚ} (h : ∀ x ∈ l, x = 0) : listMax l = 0 := by
  cases l with
  | nil => rfl
  | cons a t =>
    have ha : a = 0 := h a (List.mem_cons_self a t)
    have ht : ∀ x ∈ t, x = 0 := fun x hx => h x (List.mem_cons_of_mem a hx)
    show t.foldl max a = 0
    rw [ha]
    exact foldl_max_zero t ht

theorem normalizeGrid_of_zero {g : ℕ × ℕ → ℚ} (hg : ∀ p, g p = 0)
    (num_patches_h num_patches_w : ℕ) (p : ℕ × ℕ) :
    normalizeGrid g num_patches_h num_patches_w p = 0 := by
  have hall : ∀ x ∈ gridVals (fun q => |g q|) num_patches_h num_patches_w, x = 0 := by
    intro x hx
    rcases List.mem_map.1 hx with ⟨q, _, hq⟩
    rw [← hq]
    show |g q| = 0
    rw [hg q, abs_zero]
  have hcond : ¬ (listMax (gridVals (fun q => |g q|) num_patches_h num_patches_w) -
      listMin (gridVals (fun q => |g q|) num_patches_h num_patches_w) > eps) := by
    rw [listMax_all_zero hall, listMin_all_zero hall]
    simpa using not_lt.2 (le_of_lt eps_pos)
  unfold normalizeGrid
  rw [if_neg hcond]

theorem sampleStep_frame (score : ScoreFn) (predicted_class img_buf patch_size i j : ℕ)
    (delta orig_prob : ℚ) (st : Heap × List ℚ) (hbuf : img_buf < st.1.next) :
    (sampleStep score predicted_class img_buf patch_size i j delta orig_prob st).1.data img_buf
        = st.1.data img_buf ∧
      img_buf < (sampleStep score predicted_class img_buf patch_size i j delta orig_prob st).1.next := by
  have hne : img_buf ≠ st.1.next := Nat.ne_of_lt hbuf
  have hdata : (sampleStep score predicted_class img_buf patch_size i j delta orig_prob st).1.data
      = Function.update (Function.update st.1.data st.1.next (st.1.data img_buf)) st.1.next
          (perturbPatch
            (Function.update st.1.data st.1.next (st.1.data img_buf) st.1.next)
            patch_size i j delta) := rfl
  have hnext : (sampleStep score predicted_class img_buf patch_size i j delta orig_prob st).1.next
      = st.1.next + 1 := rfl
  constructor
  · rw [hdata, Function.update_noteq hne, Function.update_noteq hne]
  · rw [hnext]
    exact Nat.lt_succ_of_lt hbuf

theorem foldl_sampleStep_frame (score : ScoreFn) (predicted_class img_buf patch_size i j : ℕ)
    (delta orig_prob : ℚ) :
    ∀ (l : List ℕ) (st : Heap × List ℚ), img_buf < st.1.next →
      ((l.foldl (fun s _ => sampleStep score predicted_class img_buf patch_size i j delta orig_prob s) st).1.data img_buf
          = st.1.data img_buf ∧
        img_buf < (l.foldl (fun s _ => sampleStep score predicted_class img_buf patch_size i j delta orig_prob s) st).1.next) := by
  intro l
  induction l with
  | nil =>
    intro st h
    exact ⟨rfl, h⟩
  | cons a t ih =>
    intro st h
    have hs := sampleStep_frame score predicted_class img_buf patch_size i j delta orig_prob st h
    simp only [List.foldl_cons]
    have hrec := ih (sampleStep score predicted_class img_buf patch_size i j delta orig_prob st) hs.2
    exact ⟨hrec.1.trans hs.1, hrec.2⟩

theorem patchStep_frame (score : ScoreFn) (predicted_class img_buf patch_size num_samples : ℕ)
    (delta orig_prob : ℚ) (st : Heap × (ℕ × ℕ → ℚ)) (p : ℕ × ℕ) (hbuf : img_buf < st.1.next) :
    (patchStep score predicted_class img_buf patch_size num_samples delta orig_prob st p).1.data img_buf
        = st.1.data img_buf ∧
      img_buf < (patchStep score predicted_class img_buf patch_size num_samples delta orig_prob st p).1.next := by
  have h := foldl_sampleStep_frame score predicted_class img_buf patch_size p.1 p.2 delta orig_prob
    (List.range num_samples) (st.1, []) hbuf
  exact ⟨h.1, h.2⟩

theorem foldl_patchStep_frame (score : ScoreFn) (predicted_class img_buf patch_size num_samples : ℕ)
    (delta orig_prob : ℚ) :
    ∀ (l : List (ℕ × ℕ)) (st : Heap × (ℕ × ℕ → ℚ)), img_buf < st.1.next →
      ((l.foldl (patchStep score predicted_class img_buf patch_size num_samples delta orig_prob) st).1.data img_buf
          = st.1.data img_buf ∧
        img_buf < (l.foldl (patchStep score predicted_class img_buf patch_size num_samples delta orig_prob) st).1.next) := by
  intro l
  induction l with
  | nil =>
    intro st h
    exact ⟨rfl, h⟩
  | cons p t ih =>
    intro st h
    have hs := patchStep_frame score predicted_class img_buf patch_size num_samples delta orig_prob st p h
    simp only [List.foldl_cons]
    have hrec := ih (patchStep score predicted_class img_buf patch_size num_samples delta orig_prob st p) hs.2
    exact ⟨hrec.1.trans hs.1, hrec.2⟩

/-! ### Claim theorems -/

/-- C1: the source contains no configuration validation at all.  On an 8×8
image with `patch_size = 16` (height and width smaller than the patch size)
the run does not fail with an `InvalidConfiguration` error before the
baseline forward pass; the baseline pass always runs, the patch grid is
empty, and the run aborts only at the empty `heatmap.min()` reduction, for
every scoring function, image and delta. -/
theorem msa_run_small_image_empty_reduction (score : ScoreFn) (image : Img)
    (predicted_class : ℕ) (delta : ℚ) :
    generate_attribution_run score image predicted_class 8 8 16 10 delta =
      Except.error MsaError.emptyMinReduce := rfl

/-- C2: for each in-range patch index `(i, j)` and positive `num_samples`,
the pre-normalization grid entry equals the average over `num_samples`
repetitions of `(score_fn(perturbed)[target_class] - p0) / delta`, where the
perturbed image adds `delta` to exactly the pixels of the patch rectangle on
every channel and `p0 = score_fn(image)[target_class]`. -/
theorem msa_patch_value_mean_elementary_effect (score : ScoreFn) (image : Img)
    (predicted_class H W patch_size num_samples i j : ℕ) (delta : ℚ)
    (hdH : patch_size ∣ H) (hdW : patch_size ∣ W) (hns : 0 < num_samples)
    (hi : i < H / patch_size) (hj : j < W / patch_size) :
    msaPatchGrid score image predicted_class H W patch_size num_samples delta (i, j) =
      (List.replicate num_samples
          ((score (fun c y x =>
              if i * patch_size ≤ y ∧ y < (i + 1) * patch_size ∧
                  j * patch_size ≤ x ∧ x < (j + 1) * patch_size then
                image c y x + delta
              else image c y x) predicted_class -
            score image predicted_class) / delta)).sum / (num_samples : ℚ) := by
  have hmem : ((i, j) : ℕ × ℕ) ∈ patchIndexList (H / patch_size) (W / patch_size) :=
    mem_patchIndexList.2 ⟨hi, hj⟩
  show fillGrid _ _ _ (i, j) = _
  rw [fillGrid_eval, if_pos hmem]
  unfold patchValue effectsList elementaryEffect perturbPatch
  simp [List.length_replicate]

/-- C2 witness at a concrete input: a 1×1 image, one 1×1 patch, one sample,
`delta = 1`, scoring function reading pixel `(0,0,0)`. -/
theorem msa_patch_value_mean_elementary_effect_witness :
    ((1 : ℕ) ∣ 1) ∧ (0 < (1 : ℕ)) ∧ (0 < 1 / (1 : ℕ)) ∧
      msaPatchGrid (fun im _ => im 0 0 0) (fun _ _ _ => 0) 0 1 1 1 1 1 (0, 0) = 1 := by
  refine ⟨by decide, by decide, by decide, ?_⟩
  rw [msa_patch_value_mean_elementary_effect (fun im _ => im 0 0 0) (fun _ _ _ => 0)
    0 1 1 1 1 0 0 1 (by decide) (by decide) (by decide) (by decide) (by decide)]
  norm_num

/-- C3: after averaging, the grid is replaced by its absolute values and
min-max normalized as `(v - min) / (max - min)`; exactly when the range
`max - min` is at most `eps = 1e-8`, every entry is instead set to `0`
(an internal branch, not an error). -/
theorem msa_abs_then_minmax_normalization (score : ScoreFn) (image : Img)
    (predicted_class H W patch_size num_samples i j : ℕ) (delta : ℚ) :
    (listMax (gridVals
          (fun p => |msaPatchGrid score image predicted_class H W patch_size num_samples delta p|)
          (H / patch_size) (W / patch_size)) -
        listMin (gridVals
          (fun p => |msaPatchGrid score image predicted_class H W patch_size num_samples delta p|)
          (H / patch_size) (W / patch_size)) > eps →
      msaNormalizedGrid score image predicted_class H W patch_size num_samples delta (i, j) =
        (|msaPatchGrid score image predicted_class H W patch_size num_samples delta (i, j)| -
            listMin (gridVals
              (fun p => |msaPatchGrid score image predicted_class H W patch_size num_samples delta p|)
              (H / patch_size) (W / patch_size))) /
          (listMax (gridVals
              (fun p => |msaPatchGrid score image predicted_class H W patch_size num_samples delta p|)
              (H / patch_size) (W / patch_size)) -
            listMin (gridVals
              (fun p => |msaPatchGrid score image predicted_class H W patch_size num_samples delta p|)
              (H / patch_size) (W / patch_size)))) ∧
    (listMax (gridVals
          (fun p => |msaPatchGrid score image predicted_class H W patch_size num_samples delta p|)
          (H / patch_size) (W / patch_size)) -
        listMin (gridVals
          (fun p => |msaPatchGrid score image predicted_class H W patch_size num_samples delta p|)
          (H / patch_size) (W / patch_size)) ≤ eps →
      msaNormalizedGrid score image predicted_class H W patch_size num_samples delta (i, j) = 0) := by
  constructor
  · intro h
    unfold msaNormalizedGrid normalizeGrid
    rw [if_pos h]
  · intro h
    unfold msaNormalizedGrid normalizeGrid
    rw [if_neg (not_lt.2 h)]

/-- C3 witness: on a 2×1 grid where one patch reacts and the other does not,
the range is above `eps` and the reacting patch normalizes to `1`; on a
single-patch grid the range is `0 ≤ eps` and the entry is zeroed. -/
theorem msa_abs_then_minmax_normalization_witness :
    msaNormalizedGrid (fun im _ => im 0 0 0) (fun _ _ _ => 0) 0 2 1 1 1 1 (0, 0) =
        (|msaPatchGrid (fun im _ => im 0 0 0) (fun _ _ _ => 0) 0 2 1 1 1 1 (0, 0)| -
            listMin (gridVals
              (fun p => |msaPatchGrid (fun im _ => im 0 0 0) (fun _ _ _ => 0) 0 2 1 1 1 1 p|) 2 1)) /
          (listMax (gridVals
              (fun p => |msaPatchGrid (fun im _ => im 0 0 0) (fun _ _ _ => 0) 0 2 1 1 1 1 p|) 2 1) -
            listMin (gridVals
              (fun p => |msaPatchGrid (fun im _ => im 0 0 0) (fun _ _ _ => 0) 0 2 1 1 1 1 p|) 2 1)) ∧
      msaNormalizedGrid (fun _ _ => 0) (fun _ _ _ => 0) 0 1 1 1 1 1 (0, 0) = 0 := by
  constructor
  · exact (msa_abs_then_minmax_normalization (fun im _ => im 0 0 0) (fun _ _ _ => 0)
      0 2 1 1 1 0 0 1).1 (by
        norm_num [msaPatchGrid, rawHeatmapWith, fillGrid_eval, patchIndexList, patchValue,
          effectsList, elementaryEffect, perturbPatch, gridVals, listMax, listMin, eps,
          List.range_succ, max_def, min_def])
  · exact (msa_abs_then_minmax_normalization (fun _ _ => 0) (fun _ _ _ => 0)
      0 1 1 1 1 0 0 1).2 (by
        norm_num [msaPatchGrid, rawHeatmapWith, fillGrid_eval, patchIndexList, patchValue,
          effectsList, elementaryEffect, perturbPatch, gridVals, listMax, listMin, eps,
          List.range_succ, max_def, min_def])

/-- C4: on valid inputs (dimensions divisible by and at least `patch_size`,
positive `patch_size` and `num_samples`), every output pixel of
`generate_attribution` is the bilinear sample (corner alignment disabled) of
the normalized patch grid, and lies in `[0, 1]` inclusive. -/
theorem msa_heatmap_bilinear_unit_interval (score : ScoreFn) (image : Img)
    (predicted_class H W patch_size num_samples : ℕ) (delta : ℚ)
    (hps : 0 < patch_size) (hns : 0 < num_samples)
    (hdH : patch_size ∣ H) (hdW : patch_size ∣ W)
    (hHge : patch_size ≤ H) (hWge : patch_size ≤ W)
    (y x : ℕ) (hy : y < H) (hx : x < W) :
    generate_attribution score image predicted_class H W patch_size num_samples delta y x =
      bilinearSample
        (msaNormalizedGrid score image predicted_class H W patch_size num_samples delta)
        (H / patch_size) (W / patch_size) H W y x ∧
    0 ≤ generate_attribution score image predicted_class H W patch_size num_samples delta y x ∧
    generate_attribution score image predicted_class H W patch_size num_samples delta y x ≤ 1 := by
  have hnh : 0 < H / patch_size := Nat.div_pos hHge hps
  have hnw : 0 < W / patch_size := Nat.div_pos hWge hps
  have hg : ∀ p : ℕ × ℕ, p.1 < H / patch_size → p.2 < W / patch_size →
      0 ≤ msaNormalizedGrid score image predicted_class H W patch_size num_samples delta p ∧
        msaNormalizedGrid score image predicted_class H W patch_size num_samples delta p ≤ 1 :=
    fun p hp1 hp2 =>
      normalizeGrid_mem_unit
        (msaPatchGrid score image predicted_class H W patch_size num_samples delta)
        (H / patch_size) (W / patch_size) p hp1 hp2
  have hb := bilinearSample_mem_unit
    (msaNormalizedGrid score image predicted_class H W patch_size num_samples delta)
    (H / patch_size) (W / patch_size) H W y x hnh hnw hy hx hg
  exact ⟨rfl, hb.1, hb.2⟩

/-- C4 witness at a concrete valid input. -/
theorem msa_heatmap_bilinear_unit_interval_witness :
    (0 < (1 : ℕ)) ∧ ((1 : ℕ) ∣ 2) ∧ (1 ≤ (2 : ℕ)) ∧ (0 < (2 : ℕ)) ∧
      (0 ≤ generate_attribution (fun im _ => im 0 0 0) (fun _ _ _ => 0) 0 2 2 1 1 1 0 0 ∧
        generate_attribution (fun im _ => im 0 0 0) (fun _ _ _ => 0) 0 2 2 1 1 1 0 0 ≤ 1) := by
  refine ⟨by decide, by decide, by decide, by decide, ?_⟩
  have h := msa_heatmap_bilinear_unit_interval (fun im _ => im 0 0 0) (fun _ _ _ => 0)
    0 2 2 1 1 1 (by decide) (by decide) (by decide) (by decide) (by decide) (by decide)
    0 0 (by decide) (by decide)
  exact ⟨h.2.1, h.2.2⟩

/-- C5: if the scoring function returns the same probabilities for every
input image, every output pixel of the heatmap is `0`. -/
theorem msa_constant_score_zero_heatmap (score : ScoreFn) (image : Img)
    (predicted_class H W patch_size num_samples : ℕ) (delta : ℚ)
    (hconst : ∀ im1 im2 c, score im1 c = score im2 c)
    (hns : 0 < num_samples) (hdelta : delta ≠ 0) (y x : ℕ) :
    generate_attribution score image predicted_class H W patch_size num_samples delta y x = 0 := by
  have hraw : ∀ p, msaPatchGrid score image predicted_class H W patch_size num_samples delta p = 0 := by
    intro p
    show fillGrid _ _ _ p = 0
    rw [fillGrid_eval]
    split_ifs with hp
    · unfold patchValue effectsList elementaryEffect
      rw [hconst (perturbPatch image patch_size p.1 p.2 delta) image predicted_class]
      simp
    · rfl
  have hnorm : ∀ p, msaNormalizedGrid score image predicted_class H W patch_size num_samples delta p = 0 :=
    fun p => normalizeGrid_of_zero hraw (H / patch_size) (W / patch_size) p
  have hfinal : generate_attribution score image predicted_class H W patch_size num_samples delta y x
      = bilinearSample
          (msaNormalizedGrid score image predicted_class H W patch_size num_samples delta)
          (H / patch_size) (W / patch_size) H W y x := rfl
  rw [hfinal]
  unfold bilinearSample
  simp only [hnorm]
  unfold mix
  ring

/-- C5 witness: a literally constant scoring function on a 2×2 image with
1×1 patches gives a zero heatmap pixel. -/
theorem msa_constant_score_zero_heatmap_witness :
    (0 < (1 : ℕ)) ∧ ((1 : ℚ) ≠ 0) ∧
      generate_attribution (fun _ _ => 1 / 2) (fun _ _ _ => 0) 0 2 2 1 1 1 1 1 = 0 := by
  refine ⟨by decide, by norm_num, ?_⟩
  exact msa_constant_score_zero_heatmap (fun _ _ => 1 / 2) (fun _ _ _ => 0) 0 2 2 1 1 1
    (fun _ _ _ => rfl) (by decide) (by norm_num) 1 1

/-- C6: running the per-patch computations in any permutation of the
row-major patch order yields the identical heatmap. -/
theorem msa_patch_order_independence (score : ScoreFn) (image : Img)
    (predicted_class H W patch_size num_samples : ℕ) (delta : ℚ)
    (order : List (ℕ × ℕ))
    (hperm : List.Perm order (patchIndexList (H / patch_size) (W / patch_size))) :
    generate_attribution_with_order score image predicted_class H W patch_size num_samples delta order =
      generate_attribution score image predicted_class H W patch_size num_samples delta := by
  have hgrid : rawHeatmapWith score image predicted_class patch_size num_samples delta order =
      rawHeatmapWith score image predicted_class patch_size num_samples delta
        (patchIndexList (H / patch_size) (W / patch_size)) := by
    funext q
    unfold rawHeatmapWith
    rw [fillGrid_eval, fillGrid_eval]
    by_cases hq : q ∈ patchIndexList (H / patch_size) (W / patch_size)
    · rw [if_pos (hperm.mem_iff.2 hq), if_pos hq]
    · rw [if_neg (fun hc => hq (hperm.mem_iff.1 hc)), if_neg hq]
  unfold generate_attribution generate_attribution_with_order
  rw [hgrid]

/-- C6 witness: on a 1×2 patch grid, visiting the two patches in reversed
order yields the same heatmap as the row-major order. -/
theorem msa_patch_order_independence_witness :
    List.Perm [((0 : ℕ), (1 : ℕ)), (0, 0)] (patchIndexList (1 / 1) (2 / 1)) ∧
      generate_attribution_with_order (fun im _ => im 0 0 0) (fun _ _ _ => 0) 0 1 2 1 1 1
          [(0, 1), (0, 0)] =
        generate_attribution (fun im _ => im 0 0 0) (fun _ _ _ => 0) 0 1 2 1 1 1 :=
  ⟨by decide, msa_patch_order_independence (fun im _ => im 0 0 0) (fun _ _ _ => 0)
    0 1 2 1 1 1 [(0, 1), (0, 0)] (by decide)⟩

/-- C7: the pipeline has no hidden state or randomness: given extensionally
equal deterministic scoring functions and images and identical parameters,
two invocations return identical heatmaps. -/
theorem msa_deterministic (score1 score2 : ScoreFn) (image1 image2 : Img)
    (predicted_class H W patch_size num_samples : ℕ) (delta : ℚ)
    (hscore : ∀ im c, score1 im c = score2 im c)
    (himage : ∀ c y x, image1 c y x = image2 c y x) :
    generate_attribution score1 image1 predicted_class H W patch_size num_samples delta =
      generate_attribution score2 image2 predicted_class H W patch_size num_samples delta := by
  have hs : score1 = score2 := funext fun im => funext fun c => hscore im c
  have hi : image1 = image2 := funext fun c => funext fun y => funext fun x => himage c y x
  rw [hs, hi]

/-- C7 witness: two syntactically distinct but extensionally equal
invocations coincide. -/
theorem msa_deterministic_witness :
    generate_attribution (fun im _ => im 0 0 0) (fun _ _ _ => 0) 0 2 2 1 1 1 =
      generate_attribution (fun im _ => im 0 0 0 + 0) (fun _ _ _ => 0 + 0) 0 2 2 1 1 1 :=
  msa_deterministic (fun im _ => im 0 0 0) (fun im _ => im 0 0 0 + 0)
    (fun _ _ _ => 0) (fun _ _ _ => 0 + 0) 0 2 2 1 1 1
    (fun im _ => (add_zero (im 0 0 0)).symm) (fun _ _ _ => (add_zero 0).symm)

/-- C8: the patch grid has exactly `(H // patch_size) * (W // patch_size)`
entries; each visited patch slice ends within bounds
(`(i+1)*patch_size ≤ H`, `(j+1)*patch_size ≤ W`), and the perturbation
leaves every pixel past the last full patch row or column untouched. -/
theorem msa_remainder_patches_dropped (image : Img) (H W patch_size i j : ℕ) (delta : ℚ)
    (hps : 0 < patch_size) (hi : i < H / patch_size) (hj : j < W / patch_size) :
    (patchIndexList (H / patch_size) (W / patch_size)).length =
        (H / patch_size) * (W / patch_size) ∧
    (i + 1) * patch_size ≤ H ∧ (j + 1) * patch_size ≤ W ∧
    (∀ c y x : ℕ, (H / patch_size) * patch_size ≤ y ∨ (W / patch_size) * patch_size ≤ x →
      perturbPatch image patch_size i j delta c y x = image c y x) := by
  have hiH : (i + 1) * patch_size ≤ (H / patch_size) * patch_size :=
    Nat.mul_le_mul (Nat.succ_le_of_lt hi) (le_refl patch_size)
  have hjW : (j + 1) * patch_size ≤ (W / patch_size) * patch_size :=
    Nat.mul_le_mul (Nat.succ_le_of_lt hj) (le_refl patch_size)
  refine ⟨?_, ?_, ?_, ?_⟩
  · simp [patchIndexList, List.length_flatMap, Function.comp_def, List.map_const, mul_comm]
  · exact le_trans hiH (Nat.div_mul_le_self H patch_size)
  · exact le_trans hjW (Nat.div_mul_le_self W patch_size)
  · intro c y x hyx
    unfold perturbPatch
    rw [if_neg]
    rintro ⟨h1, h2, h3, h4⟩
    rcases hyx with hy' | hx'
    · omega
    · omega

/-- C8 witness: the spec's example, a 230×230 image with `patch_size = 16`:
a 14×14 grid, the last full patch ends at pixel 224, and a pixel in the
dropped 6-pixel margin is never perturbed. -/
theorem msa_remainder_patches_dropped_witness :
    (0 < (16 : ℕ)) ∧ (13 < 230 / 16) ∧
      ((patchIndexList (230 / 16) (230 / 16)).length = (230 / 16) * (230 / 16) ∧
        (13 + 1) * 16 ≤ 230 ∧ (13 + 1) * 16 ≤ 230 ∧
        (∀ c y x : ℕ, (230 / 16) * 16 ≤ y ∨ (230 / 16) * 16 ≤ x →
          perturbPatch (fun _ _ _ => 0) 16 13 13 1 c y x = (fun _ _ _ => (0 : ℚ)) c y x)) :=
  ⟨by decide, by decide,
    msa_remainder_patches_dropped (fun _ _ _ => 0) 230 230 16 13 13 1
      (by decide) (by decide) (by decide)⟩

/-- C9: in the buffer model, an invocation of the heap-level pipeline never
writes the buffer holding the original image: every perturbation goes to a
freshly cloned buffer, so the input image is unchanged after the call (the
scoring function is a pure collaborator, hence side-effect-free). -/
theorem msa_input_image_not_mutated (score : ScoreFn) (h0 : Heap)
    (img_buf predicted_class H W patch_size num_samples : ℕ) (delta : ℚ)
    (hbuf : img_buf < h0.next) :
    (generate_attribution_heap score h0 img_buf predicted_class H W patch_size num_samples delta).1.data img_buf
      = h0.data img_buf := by
  have h := foldl_patchStep_frame score predicted_class img_buf patch_size num_samples delta
    (score (h0.data img_buf) predicted_class)
    (patchIndexList (H / patch_size) (W / patch_size)) (h0, fun _ => 0) hbuf
  exact h.1

/-- C9 witness: a concrete one-buffer heap whose image buffer is unchanged
by a 2×2-image, 1×1-patch run. -/
theorem msa_input_image_not_mutated_witness :
    (0 < (1 : ℕ)) ∧
      (generate_attribution_heap (fun im _ => im 0 0 0) ⟨fun _ => fun _ _ _ => 0, 1⟩
          0 0 2 2 1 1 1).1.data 0 =
        (⟨fun _ => fun _ _ _ => 0, 1⟩ : Heap).data 0 :=
  ⟨by decide,
    msa_input_image_not_mutated (fun im _ => im 0 0 0) ⟨fun _ => fun _ _ _ => 0, 1⟩
      0 0 2 2 1 1 1 (by decide)⟩

/-- C10: with `target_layer = None`, the Grad-CAM dispatch selects an
internal layer for exactly the eight supported torchvision families and,
for any other model class, returns the `ValueError` naming the model type
without running the attribution computation (the result is the error for
every attribution function). -/
theorem gradcam_layer_dispatch {α : Type} (model : TorchvisionModel)
    (layerAttribution : TargetLayer → α) :
    ((model = TorchvisionModel.ConvNeXt ∨ model = TorchvisionModel.EfficientNet ∨
        model = TorchvisionModel.ResNet ∨ model = TorchvisionModel.VisionTransformer ∨
        model = TorchvisionModel.SwinTransformer ∨ model = TorchvisionModel.RegNet ∨
        model = TorchvisionModel.MobileNetV3 ∨ model = TorchvisionModel.DenseNet) →
      ∃ layer, gradcam_generate_attribution model none layerAttribution =
        Except.ok (layerAttribution layer)) ∧
    (∀ n, model = TorchvisionModel.Unsupported n →
      gradcam_generate_attribution model none layerAttribution =
        Except.error ("Unsupported model architecture: " ++ n)) := by
  constructor
  · rintro (rfl | rfl | rfl | rfl | rfl | rfl | rfl | rfl)
    · exact ⟨TargetLayer.featuresLast, rfl⟩
    · exact ⟨TargetLayer.featuresLast, rfl⟩
    · exact ⟨TargetLayer.layer4Last, rfl⟩
    · exact ⟨TargetLayer.encoderLayersLast, rfl⟩
    · exact ⟨TargetLayer.swinFeaturesMlp0, rfl⟩
    · exact ⟨TargetLayer.trunkOutput, rfl⟩
    · exact ⟨TargetLayer.featuresLast, rfl⟩
    · exact ⟨TargetLayer.featuresLast, rfl⟩
  · rintro n rfl
    rfl

/-- C10 witness: a supported family dispatches to a layer; an unsupported
class yields the naming error. -/
theorem gradcam_layer_dispatch_witness :
    (∃ layer, gradcam_generate_attribution TorchvisionModel.ResNet none (fun l => l) =
        Except.ok ((fun l => l) layer)) ∧
      gradcam_generate_attribution (TorchvisionModel.Unsupported ("MyCustomNet")) none
          (fun l : TargetLayer => l) =
        Except.error ("Unsupported model architecture: " ++ "MyCustomNet") :=
  ⟨(gradcam_layer_dispatch TorchvisionModel.ResNet (fun l => l)).1
      (Or.inr (Or.inr (Or.inl rfl))),
    (gradcam_layer_dispatch (TorchvisionModel.Unsupported ("MyCustomNet"))
      (fun l : TargetLayer => l)).2 ("MyCustomNet") rfl⟩

end XaiEfficiency
